import Mathlib

/-!
Verification of the zkConSeq consensus circuits.

The repository contains two circom files, each holding several circuit
variants (separated by document markers in the source):

GenomicConsensus.circom
  - document 1: a simple Consensus(nReads, readLen, threshold) that checks a
    private consensus against per-column majority (not needed by the claims).
  - document 2 (namespace GenomicDP here): the DP-based variant with
    templates T1, T2, pair_aln_seq, check_aln_seq, CountMatches,
    MajorityCheck (with an internal lt.out === 1 assert) and
    Consensus(nReads, seqLen, alnLen, threshold), instantiated as
    Consensus(10, 10, 100, 5).
  - document 3 (namespace GenomicFull here): the full variant with
    ScoringSystem, PairScore, ReverseComplement(Seq), SequenceMatch, a soft
    MajorityCheck and Consensus(nReads, maxSeqLen, maxAlnLen, threshold)
    that checks a private consensus input, instantiated as
    Consensus(10, 20, 30, 5).

ConsensusSequence.circom
  - document 1 (namespace Viral here): ViralConsensus(L, NUM_READS), the
    argmax-style per-position best-base scan.
  - document 2 (namespace CSeq here): a variant of the full circuit whose
    ScoringSystem is the two-line form (2 * cond - 1), whose SequenceMatch
    is identical to GenomicFull's, and whose Consensus computes the
    consensus as an output instead of checking a private input,
    instantiated as Consensus(5, 20, 50, 2).

Signals are elements of a large prime field.  All values the claims range
over (base codes 0..4, per-column counts bounded by nReads, pair scores
bounded by the alignment length) are far below the field characteristic,
so the embedding models field values as integers (ℤ) and the circomlib
comparator gadgets (IsEqual, IsZero, LessThan(32), GreaterThan(32),
GreaterEqThan(32)) as exact indicator functions; the 32-bit bound of the
comparators is carried as a hypothesis where a claim states it.
Constraint-system satisfiability: every signal of these templates is
assigned with <== (deterministic), so a witness exists for given inputs
exactly when every explicit === assertion holds on the computed values;
each variant's assertion set is embedded as a Prop over its inputs.
-/

set_option linter.unusedVariables false

/-- Output of circomlib IsEqual on inputs a, b: 1 if a = b else 0. -/
def isEqF (a b : ℤ) : ℤ := if a = b then 1 else 0

/-- Output of circomlib IsZero on input a: 1 if a = 0 else 0. -/
def isZeroF (a : ℤ) : ℤ := if a = 0 then 1 else 0

/-- Output of circomlib LessThan(32) on in[0] = a, in[1] = b (exact for
values below 2^32): 1 if a < b else 0. -/
def ltF (a b : ℤ) : ℤ := if a < b then 1 else 0

/-- Output of circomlib GreaterThan(32) on in[0] = a, in[1] = b: 1 if
a > b else 0. -/
def gtF (a b : ℤ) : ℤ := if b < a then 1 else 0

/-- Output of circomlib GreaterEqThan(32) on in[0] = a, in[1] = b: 1 if
a >= b else 0. -/
def geF (a b : ℤ) : ℤ := if b ≤ a then 1 else 0

/-- The first k entries of an indexed signal array as a list:
[f 0, f 1, ..., f (k-1)]. -/
def sigList (f : ℕ → ℤ) (k : ℕ) : List ℤ := (List.range k).map f

/-- Gap removal: the non-zero (non-gap) entries of a list, in order. -/
def degap (l : List ℤ) : List ℤ := l.filter (fun x => x ≠ 0)

namespace GenomicDP

/-- Output es of template T1 (e, r, c its inputs): es = e * IsZero(r). -/
def T1es (e r : ℤ) : ℤ := e * isZeroF r

/-- Output ese of template T1: ese = e * (IsEqual(c, r) * (1 - IsZero(r))). -/
def T1ese (e r c : ℤ) : ℤ := e * (isEqF c r * (1 - isZeroF r))

/-- Output ee of template T1: ee = e * (IsZero(c) * (1 - IsZero(r))). -/
def T1ee (e r c : ℤ) : ℤ := e * (isZeroF c * (1 - isZeroF r))

/-- Output ee of template T2 (e, c its inputs): ee = e * IsZero(c). -/
def T2ee (e c : ℤ) : ℤ := e * isZeroF c

/-- The column input c of cell column j in pair_aln_seq(n, m): the template
widens the grid to m+1 columns and feeds aln[j] to columns j < m and the
constant 0 to the last column j = m. -/
def colC (aln : ℕ → ℤ) (m j : ℕ) : ℤ := if j = m then 0 else aln j

/-- Row 0 of the DP grid of pair_aln_seq: the e-values of cells a[0][j].
a[0][0].e = 1, and a[0][j].e = a[0][j-1].ee for j >= 1 (row 0 has no
ese / es contributions). -/
def row0 (seq aln : ℕ → ℤ) (m : ℕ) : ℕ → ℤ
  | 0 => 1
  | j + 1 => T1ee (row0 seq aln m j) (seq 0) (colC aln m j)

/-- Row i+1 of the DP grid, given row i as prev: a[i+1][0].e = 0, and
a[i+1][j].e = a[i+1][j-1].ee + a[i][j-1].ese + a[i][j].es for j >= 1,
exactly the wiring of pair_aln_seq's fill loop. -/
def rowSucc (seq aln : ℕ → ℤ) (m i : ℕ) (prev : ℕ → ℤ) : ℕ → ℤ
  | 0 => 0
  | j + 1 => T1ee (rowSucc seq aln m i prev j) (seq (i + 1)) (colC aln m j)
      + T1ese (prev j) (seq i) (colC aln m j)
      + T1es (prev (j + 1)) (seq i)

/-- The e-value of grid cell a[i][j] of pair_aln_seq(n, m) (j ranges over
the widened 0..m). -/
def aE (seq aln : ℕ → ℤ) (m : ℕ) : ℕ → ℕ → ℤ
  | 0 => row0 seq aln m
  | i + 1 => rowSucc seq aln m i (aE seq aln m i)

/-- The e-value of termination cell b[i] of pair_aln_seq(n, m):
b[0].e = 0 and b[i].e = b[i-1].ee + a[n-1][i].es + a[n-1][i-1].ese. -/
def bE (seq aln : ℕ → ℤ) (n m : ℕ) : ℕ → ℤ
  | 0 => 0
  | i + 1 => T2ee (bE seq aln n m i) (colC aln m i)
      + T1es (aE seq aln m (n - 1) (i + 1)) (seq (n - 1))
      + T1ese (aE seq aln m (n - 1) i) (seq (n - 1)) (colC aln m i)

/-- The out signal of pair_aln_seq(n, m): out = b[m].ee (the widened index
m is the template's m-1 after its internal m = m + 1). -/
def pair_aln_seq (n m : ℕ) (seq aln : ℕ → ℤ) : ℤ :=
  T2ee (bE seq aln n m m) (colC aln m m)

/-- The chain signals b[r] of check_aln_seq: b[0] = t[0] and
b[r] = b[r-1] * t[r], where t[r] is read r's pair_aln_seq output. -/
def bChain (n m : ℕ) (seqs alns : ℕ → ℕ → ℤ) : ℕ → ℤ
  | 0 => pair_aln_seq n m (seqs 0) (alns 0)
  | r + 1 => bChain n m seqs alns r * pair_aln_seq n m (seqs (r + 1)) (alns (r + 1))

/-- The y output of check_aln_seq(nseq, seq_len, aln_len): y = b[nseq-1]. -/
def check_aln_seq (nseq n m : ℕ) (seqs alns : ℕ → ℕ → ℤ) : ℤ :=
  bChain n m seqs alns (nseq - 1)

/-- The total output of CountMatches over the per-read match bits for value
b at column pos: the count of reads r < nReads with alnReads[r][pos] = b. -/
def countBase (alnReads : ℕ → ℕ → ℤ) (nReads pos : ℕ) (b : ℤ) : ℤ :=
  Finset.sum (Finset.range nReads) (fun r => isEqF (alnReads r pos) b)

/-- The ok output of MajorityCheck(threshold): ok = LessThan(32)(threshold,
count).  In this variant the template also asserts lt.out === 1; that
assertion is part of ConsensusAssertions below. -/
def MajorityCheck (threshold count : ℤ) : ℤ := ltF threshold count

/-- The consensus output of the DP-variant Consensus at column i:
acc = sum over b of b * mc[i][b].ok with b ranging over 0..3, applied to
the counts of base codes b+1 (matches[.][.][b] compares against b+1). -/
def consensusOut (nReads : ℕ) (threshold : ℤ) (alnReads : ℕ → ℕ → ℤ) (i : ℕ) : ℤ :=
  0 * MajorityCheck threshold (countBase alnReads nReads i 1)
    + 1 * MajorityCheck threshold (countBase alnReads nReads i 2)
    + 2 * MajorityCheck threshold (countBase alnReads nReads i 3)
    + 3 * MajorityCheck threshold (countBase alnReads nReads i 4)

/-- The sum sumOk of the four majority indicators of column i of the
DP-variant Consensus. -/
def sumOk (nReads : ℕ) (threshold : ℤ) (alnReads : ℕ → ℕ → ℤ) (i : ℕ) : ℤ :=
  MajorityCheck threshold (countBase alnReads nReads i 1)
    + MajorityCheck threshold (countBase alnReads nReads i 2)
    + MajorityCheck threshold (countBase alnReads nReads i 3)
    + MajorityCheck threshold (countBase alnReads nReads i 4)

/-- The assertion set of the DP-variant Consensus(nReads, seqLen, alnLen,
threshold): chk.y === 1; for every column and base the MajorityCheck
internal lt.out === 1 (re-asserted as mc[i][b].ok === 1); and per column
sumOk === 1. -/
def ConsensusAssertions (nReads seqLen alnLen : ℕ) (threshold : ℤ)
    (reads alnReads : ℕ → ℕ → ℤ) : Prop :=
  check_aln_seq nReads seqLen alnLen reads alnReads = 1
    ∧ (∀ i < alnLen, ∀ b < 4,
        MajorityCheck threshold (countBase alnReads nReads i (b + 1)) = 1)
    ∧ (∀ i < alnLen, sumOk nReads threshold alnReads i = 1)

end GenomicDP

/-- Output revComp of template ReverseComplement (textually identical in
GenomicConsensus.circom and ConsensusSequence.circom): the 5-way equality
selection eq[0]*0 + eq[1]*4 + eq[2]*3 + eq[3]*2 + eq[4]*1. -/
def ReverseComplement (base : ℤ) : ℤ :=
  isEqF base 0 * 0 + isEqF base 1 * 4 + isEqF base 2 * 3
    + isEqF base 3 * 2 + isEqF base 4 * 1

/-- Template ReverseComplementSeq (identical in both files) on a sequence
given as a list: revSeq[i] = ReverseComplement(seq[seqLen - 1 - i]), i.e.
the complement map applied to the reversed index order. -/
def ReverseComplementSeq (seq : List ℤ) : List ℤ :=
  seq.reverse.map ReverseComplement

/-- The extractedCount running-sum signals of template SequenceMatch
(identical logic in both files): extractedCount[0] = 0 and
extractedCount[i+1] = extractedCount[i] + (1 - IsZero(aligned[i])).
countNonGap aligned k is extractedCount[k]. -/
def countNonGap (aligned : ℕ → ℤ) : ℕ → ℤ
  | 0 => 0
  | i + 1 => countNonGap aligned i + (1 - isZeroF (aligned i))

/-- The extractedBases signals of template SequenceMatch:
extractedBases[i] = aligned[i] * (1 - IsZero(aligned[i])).  They are
computed but feed no constraint and no output of the template. -/
def extractedBases (aligned : ℕ → ℤ) (i : ℕ) : ℤ :=
  aligned i * (1 - isZeroF (aligned i))

/-- The isMatch output of template SequenceMatch(maxSeqLen, maxAlnLen)
(and of ConsensusSequence's SequenceMatch(maxAlnLen), whose body is the
same): isMatch = IsEqual(extractedCount[maxAlnLen], origLen).  The
original input is declared by the template but never read. -/
def SequenceMatch (original aligned : ℕ → ℤ) (maxAlnLen : ℕ) (origLen : ℤ) : ℤ :=
  isEqF (countNonGap aligned maxAlnLen) origLen

namespace GenomicFull

/-- The realMatch signal of GenomicConsensus's ScoringSystem:
eq.out * ((1 - isZero1.out) * (1 - isZero2.out)). -/
def realMatch (a b : ℤ) : ℤ := isEqF a b * ((1 - isZeroF a) * (1 - isZeroF b))

/-- The bothGaps signal of GenomicConsensus's ScoringSystem:
isZero1.out * isZero2.out. -/
def bothGaps (a b : ℤ) : ℤ := isZeroF a * isZeroF b

/-- The isMismatch signal of GenomicConsensus's ScoringSystem:
1 - realMatch - bothGaps. -/
def isMismatch (a b : ℤ) : ℤ := 1 - realMatch a b - bothGaps a b

/-- The y output of GenomicConsensus's ScoringSystem on x = (a, b):
y = realMatch - isMismatch. -/
def ScoringSystem (a b : ℤ) : ℤ := realMatch a b - isMismatch a b

/-- The score output of GenomicConsensus's PairScore(alnLen): the running
sum acc[k] of ScoringSystem over the first k columns of the two
alignments; the output is PairScore a b alnLen. -/
def PairScore (a b : ℕ → ℤ) : ℕ → ℤ
  | 0 => 0
  | k + 1 => PairScore a b k + ScoringSystem (a k) (b k)

/-- The totalScore signal of GenomicConsensus's Consensus: the sum of
PairScore over all unordered pairs i < j < nReads of aligned reads (the
source accumulates them in loop order through scoreAccumulator; addition
over the field is commutative and associative). -/
def totalScore (alignedReads : ℕ → ℕ → ℤ) (nReads maxAlnLen : ℕ) : ℤ :=
  Finset.sum (Finset.range nReads) (fun i =>
    Finset.sum (Finset.Ico (i + 1) nReads) (fun j =>
      PairScore (alignedReads i) (alignedReads j) maxAlnLen))

/-- The processedReads signal of GenomicConsensus's Consensus:
selector = IsEqual(isReversed[r], 1), and processedReads[r][i] =
selector * revComp[r].revSeq[i] + (1 - selector) * reads[r][i], where
revComp[r].revSeq[i] = ReverseComplement(reads[r][maxSeqLen - 1 - i]). -/
def processedRead (reads : ℕ → ℕ → ℤ) (isReversed : ℕ → ℤ) (maxSeqLen r i : ℕ) : ℤ :=
  isEqF (isReversed r) 1 * ReverseComplement (reads r (maxSeqLen - 1 - i))
    + (1 - isEqF (isReversed r) 1) * reads r i

/-- The per-column per-base count baseCounts[base][pos] of
GenomicConsensus's Consensus: the CountMatches total of the IsEqual
indicators of alignedReads[r][pos] against the base code b. -/
def baseCount (alignedReads : ℕ → ℕ → ℤ) (nReads pos : ℕ) (b : ℤ) : ℤ :=
  Finset.sum (Finset.range nReads) (fun r => isEqF (alignedReads r pos) b)

/-- The ok output of GenomicConsensus document 3's MajorityCheck
(threshold): ok = LessThan(32)(threshold, count), with no internal
assertion in this variant. -/
def MajorityCheck (threshold count : ℤ) : ℤ := ltF threshold count

/-- The hasMajoritySupport signal at a column: the sum of the four
baseSupport terms IsEqual(consensus[pos], base + 1) * majorityChk.ok. -/
def hasMajoritySupport (alignedReads : ℕ → ℕ → ℤ) (nReads : ℕ) (threshold : ℤ)
    (consensus : ℕ → ℤ) (pos : ℕ) : ℤ :=
  isEqF (consensus pos) 1 * MajorityCheck threshold (baseCount alignedReads nReads pos 1)
    + isEqF (consensus pos) 2 * MajorityCheck threshold (baseCount alignedReads nReads pos 2)
    + isEqF (consensus pos) 3 * MajorityCheck threshold (baseCount alignedReads nReads pos 3)
    + isEqF (consensus pos) 4 * MajorityCheck threshold (baseCount alignedReads nReads pos 4)

/-- The validConsensus[pos].out signal:
IsEqual(isGap[pos].out + hasMajoritySupport[pos], 1). -/
def validConsensus (alignedReads : ℕ → ℕ → ℤ) (nReads : ℕ) (threshold : ℤ)
    (consensus : ℕ → ℤ) (pos : ℕ) : ℤ :=
  isEqF (isZeroF (consensus pos)
    + hasMajoritySupport alignedReads nReads threshold consensus pos) 1

/-- The assertion set of GenomicConsensus document 3's
Consensus(nReads, maxSeqLen, maxAlnLen, threshold): per read
seqMatch[r].isMatch === 1 (with original = processedReads[r]),
scoreCheck.out === 1, and per column validConsensus[pos].out === 1.
All other signals, startPos included, are <==-assigned. -/
def ConsensusAssertions (nReads maxSeqLen maxAlnLen : ℕ) (threshold : ℤ)
    (reads : ℕ → ℕ → ℤ) (readLens : ℕ → ℤ) (expectedScore : ℤ)
    (alignedReads : ℕ → ℕ → ℤ) (isReversed startPos : ℕ → ℤ)
    (consensus : ℕ → ℤ) : Prop :=
  (∀ r < nReads,
      SequenceMatch (processedRead reads isReversed maxSeqLen r)
        (alignedReads r) maxAlnLen (readLens r) = 1)
    ∧ isEqF (totalScore alignedReads nReads maxAlnLen) expectedScore = 1
    ∧ (∀ pos < maxAlnLen,
        validConsensus alignedReads nReads threshold consensus pos = 1)

/-- The valid output of GenomicConsensus document 3's Consensus:
valid = scoreCheck.out. -/
def valid (nReads maxSeqLen maxAlnLen : ℕ) (threshold : ℤ)
    (reads : ℕ → ℕ → ℤ) (readLens : ℕ → ℤ) (expectedScore : ℤ)
    (alignedReads : ℕ → ℕ → ℤ) (isReversed startPos : ℕ → ℤ)
    (consensus : ℕ → ℤ) : ℤ :=
  isEqF (totalScore alignedReads nReads maxAlnLen) expectedScore

end GenomicFull

namespace CSeq

/-- The y output of ConsensusSequence's ScoringSystem on x = (a, b):
cond = eq.out * (1 - isZero.out) with isZero applied to x[0] only, and
y = 2 * cond - 1. -/
def ScoringSystem (a b : ℤ) : ℤ := 2 * (isEqF a b * (1 - isZeroF a)) - 1

/-- The score output of ConsensusSequence's PairScore(alnLen). -/
def PairScore (a b : ℕ → ℤ) : ℕ → ℤ
  | 0 => 0
  | k + 1 => PairScore a b k + ScoringSystem (a k) (b k)

/-- The totalScore signal of ConsensusSequence's Consensus: the sum of
PairScore over all unordered pairs i < j < nReads. -/
def totalScore (alignedReads : ℕ → ℕ → ℤ) (nReads maxAlnLen : ℕ) : ℤ :=
  Finset.sum (Finset.range nReads) (fun i =>
    Finset.sum (Finset.Ico (i + 1) nReads) (fun j =>
      PairScore (alignedReads i) (alignedReads j) maxAlnLen))

/-- The per-column per-base count baseCounts[base][pos] of
ConsensusSequence's Consensus. -/
def baseCount (alignedReads : ℕ → ℕ → ℤ) (nReads pos : ℕ) (b : ℤ) : ℤ :=
  Finset.sum (Finset.range nReads) (fun r => isEqF (alignedReads r pos) b)

/-- The ok output of ConsensusSequence's MajorityCheck(threshold):
ok = LessThan(32)(threshold, count); no assertion. -/
def MajorityCheck (threshold count : ℤ) : ℤ := ltF threshold count

/-- The consensus output of ConsensusSequence's Consensus at a column:
consensusBase = sum over base of (base + 1) * majorityChk[pos][base].ok,
with matches[.][.][base] counting the base code base + 1. -/
def consensusOut (alignedReads : ℕ → ℕ → ℤ) (nReads : ℕ) (threshold : ℤ)
    (pos : ℕ) : ℤ :=
  1 * MajorityCheck threshold (baseCount alignedReads nReads pos 1)
    + 2 * MajorityCheck threshold (baseCount alignedReads nReads pos 2)
    + 3 * MajorityCheck threshold (baseCount alignedReads nReads pos 3)
    + 4 * MajorityCheck threshold (baseCount alignedReads nReads pos 4)

/-- The assertion set of ConsensusSequence's
Consensus(nReads, maxSeqLen, maxAlnLen, threshold): this template contains
no === statement at all — every signal (seqMatch[r].isMatch, scoreValid,
the consensus, valid and alignmentScore outputs) is only <==-assigned, so
every input assignment extends to exactly one witness and that witness is
accepted.  Its assertion set is therefore empty. -/
def ConsensusAssertions (nReads maxSeqLen maxAlnLen : ℕ) (threshold : ℤ)
    (reads : ℕ → ℕ → ℤ) (readLens : ℕ → ℤ) (expectedScore : ℤ)
    (alignedReads : ℕ → ℕ → ℤ) (isReversed startPos : ℕ → ℤ) : Prop :=
  True

/-- The valid output of ConsensusSequence's Consensus:
valid = scoreCheck.out = IsEqual(totalScore, expectedScore). -/
def valid (nReads maxSeqLen maxAlnLen : ℕ) (threshold : ℤ)
    (reads : ℕ → ℕ → ℤ) (readLens : ℕ → ℤ) (expectedScore : ℤ)
    (alignedReads : ℕ → ℕ → ℤ) (isReversed startPos : ℕ → ℤ) : ℤ :=
  isEqF (totalScore alignedReads nReads maxAlnLen) expectedScore

/-- The alignmentScore output of ConsensusSequence's Consensus:
alignmentScore = totalScore. -/
def alignmentScore (nReads maxSeqLen maxAlnLen : ℕ) (threshold : ℤ)
    (reads : ℕ → ℕ → ℤ) (readLens : ℕ → ℤ) (expectedScore : ℤ)
    (alignedReads : ℕ → ℕ → ℤ) (isReversed startPos : ℕ → ℤ) : ℤ :=
  totalScore alignedReads nReads maxAlnLen

/-- The consensus output array of ConsensusSequence's Consensus, as a
function of the full template input list (startPos included). -/
def consensus (nReads maxSeqLen maxAlnLen : ℕ) (threshold : ℤ)
    (reads : ℕ → ℕ → ℤ) (readLens : ℕ → ℤ) (expectedScore : ℤ)
    (alignedReads : ℕ → ℕ → ℤ) (isReversed startPos : ℕ → ℤ) (pos : ℕ) : ℤ :=
  consensusOut alignedReads nReads threshold pos

end CSeq

namespace Viral

/-- The running best (best_count_int[pos][b], best_base_int[pos][b]) pair
of ViralConsensus's per-position scan: slot 0 starts at
(counts[0], 0), and slot b+1 keeps the previous best unless
GreaterThan(32)(counts[b+1], best) fires, in which case it takes
(counts[b+1], b+1). -/
def bestStep (counts : ℕ → ℤ) : ℕ → ℤ × ℤ
  | 0 => (counts 0, 0)
  | b + 1 =>
      (gtF (counts (b + 1)) (bestStep counts b).1 * counts (b + 1)
        + (1 - gtF (counts (b + 1)) (bestStep counts b).1) * (bestStep counts b).1,
       gtF (counts (b + 1)) (bestStep counts b).1 * (b + 1)
        + (1 - gtF (counts (b + 1)) (bestStep counts b).1) * (bestStep counts b).2)

/-- The best_count output of ViralConsensus at a position, from the five
per-base counts of that position. -/
def best_count (counts : ℕ → ℤ) : ℤ := (bestStep counts 4).1

/-- The best_base output of ViralConsensus at a position. -/
def best_base (counts : ℕ → ℤ) : ℤ := (bestStep counts 4).2

end Viral

/-! ## Helper lemmas -/

lemma isEqF_self (a : ℤ) : isEqF a a = 1 := by simp [isEqF]

lemma isEqF_of_ne {a b : ℤ} (h : a ≠ b) : isEqF a b = 0 := by simp [isEqF, h]

lemma isZeroF_zero : isZeroF 0 = 1 := by simp [isZeroF]

lemma isZeroF_of_ne {a : ℤ} (h : a ≠ 0) : isZeroF a = 0 := by simp [isZeroF, h]

lemma sigList_zero (f : ℕ → ℤ) : sigList f 0 = [] := rfl

lemma sigList_succ (f : ℕ → ℤ) (k : ℕ) :
    sigList f (k + 1) = sigList f k ++ [f k] := by
  simp [sigList, List.range_succ]

lemma sigList_ne_nil {f : ℕ → ℤ} {k : ℕ} (hk : 0 < k) : sigList f k ≠ [] := by
  simp only [sigList, ne_eq, List.map_eq_nil_iff, List.range_eq_nil]
  omega

lemma degap_nil : degap [] = [] := rfl

lemma degap_append (l l' : List ℤ) : degap (l ++ l') = degap l ++ degap l' := by
  simp [degap, List.filter_append]

lemma degap_singleton (x : ℤ) :
    degap [x] = if x = 0 then [] else [x] := by
  by_cases h : x = 0 <;> simp [degap, h]

lemma concat_inj_iff {l₁ l₂ : List ℤ} {a b : ℤ} :
    l₁ ++ [a] = l₂ ++ [b] ↔ l₁ = l₂ ∧ a = b := by
  constructor
  · intro h
    rcases List.append_inj' h rfl with ⟨h1, h2⟩
    exact ⟨h1, by simpa using h2⟩
  · rintro ⟨rfl, rfl⟩
    rfl

lemma ind_mul_ind (p q : Prop) [Decidable p] [Decidable q] :
    ((if p then (1 : ℤ) else 0) * if q then 1 else 0) = if p ∧ q then 1 else 0 := by
  by_cases hp : p <;> by_cases hq : q <;> simp [hp, hq]

/-! ## Correctness of the pair_aln_seq dynamic program (claim C2)

The invariant: the e-value of cell a[i][j] is 1 exactly when the non-gap
entries of aln[0..j) spell out seq[0..i) in order, and 0 otherwise, as
long as the first i+1 read symbols are non-gaps (in the claims, read
symbols range over the base codes 1..4).  The termination row b then
carries the same invariant for the full read. -/

lemma row0_spec (seq aln : ℕ → ℤ) (m : ℕ) (h0 : seq 0 ≠ 0) :
    ∀ j ≤ m, GenomicDP.row0 seq aln m j
      = if degap (sigList aln j) = [] then 1 else 0 := by
  intro j
  induction j with
  | zero => intro _; simp [GenomicDP.row0, sigList_zero, degap_nil]
  | succ j ih =>
    intro hj
    have hjm : j ≠ m := by omega
    have ihj := ih (by omega)
    simp only [GenomicDP.row0, GenomicDP.T1ee, GenomicDP.colC, if_neg hjm,
      isZeroF_of_ne h0, sigList_succ, degap_append, degap_singleton]
    by_cases ha : aln j = 0
    · simp [ha, isZeroF_zero, ihj]
    · simp [ha, isZeroF_of_ne ha]

lemma rowSucc_spec (seq aln : ℕ → ℤ) (m i : ℕ) (prev : ℕ → ℤ)
    (hi : seq i ≠ 0) (hi1 : seq (i + 1) ≠ 0)
    (hprev : ∀ j ≤ m, prev j
      = if degap (sigList aln j) = sigList seq i then 1 else 0) :
    ∀ j ≤ m, GenomicDP.rowSucc seq aln m i prev j
      = if degap (sigList aln j) = sigList seq (i + 1) then 1 else 0 := by
  intro j
  induction j with
  | zero =>
    intro _
    have : sigList seq (i + 1) ≠ [] := sigList_ne_nil (by omega)
    simp [GenomicDP.rowSucc, sigList_zero, degap_nil, Ne.symm this]
  | succ j ih =>
    intro hj
    have hjm : j ≠ m := by omega
    have ihj := ih (by omega)
    have hpj := hprev j (by omega)
    have hsplit : sigList seq (i + 1) = sigList seq i ++ [seq i] := sigList_succ seq i
    simp only [GenomicDP.rowSucc, GenomicDP.T1ee, GenomicDP.T1ese,
      GenomicDP.T1es, GenomicDP.colC, if_neg hjm, isZeroF_of_ne hi,
      isZeroF_of_ne hi1, mul_zero, add_zero, sub_zero, mul_one]
    by_cases ha : aln j = 0
    · have hd : degap (sigList aln (j + 1)) = degap (sigList aln j) := by
        rw [sigList_succ, degap_append, ha, degap_singleton]
        simp
      rw [ha, isZeroF_zero, mul_one, isEqF_of_ne (Ne.symm hi), mul_zero,
        add_zero, hd]
      exact ihj
    · have hd : degap (sigList aln (j + 1)) = degap (sigList aln j) ++ [aln j] := by
        rw [sigList_succ, degap_append, degap_singleton, if_neg ha]
      rw [isZeroF_of_ne ha, mul_zero, zero_add, hd, hsplit, hpj]
      simp only [isEqF, ind_mul_ind]
      by_cases hc : degap (sigList aln j) = sigList seq i ∧ aln j = seq i
      · rw [if_pos hc, if_pos (concat_inj_iff.mpr hc)]
      · rw [if_neg hc, if_neg (fun h => hc (concat_inj_iff.mp h))]

lemma aE_spec (seq aln : ℕ → ℤ) (m : ℕ) :
    ∀ i, (∀ k ≤ i, seq k ≠ 0) → ∀ j ≤ m,
      GenomicDP.aE seq aln m i j
        = if degap (sigList aln j) = sigList seq i then 1 else 0 := by
  intro i
  induction i with
  | zero =>
    intro h j hj
    have := row0_spec seq aln m (h 0 le_rfl) j hj
    simpa [GenomicDP.aE, sigList_zero] using this
  | succ i ih =>
    intro h j hj
    have hprev := ih (fun k hk => h k (by omega))
    exact rowSucc_spec seq aln m i (GenomicDP.aE seq aln m i)
      (h i (by omega)) (h (i + 1) le_rfl) hprev j hj

lemma bE_spec (seq aln : ℕ → ℤ) (n m : ℕ) (hn : 0 < n)
    (hseq : ∀ k < n, seq k ≠ 0) :
    ∀ i ≤ m, GenomicDP.bE seq aln n m i
      = if degap (sigList aln i) = sigList seq n then 1 else 0 := by
  have hn1 : n - 1 + 1 = n := Nat.succ_pred_eq_of_pos hn
  have hsplit : sigList seq n = sigList seq (n - 1) ++ [seq (n - 1)] := by
    conv_lhs => rw [← hn1]
    exact sigList_succ seq (n - 1)
  have hlast : seq (n - 1) ≠ 0 := hseq (n - 1) (by omega)
  have haE := aE_spec seq aln m (n - 1) (fun k hk => hseq k (by omega))
  intro i
  induction i with
  | zero =>
    intro _
    have : sigList seq n ≠ [] := sigList_ne_nil hn
    simp [GenomicDP.bE, sigList_zero, degap_nil, Ne.symm this]
  | succ i ih =>
    intro hi
    have him : i ≠ m := by omega
    have ihi := ih (by omega)
    have haEi := haE i (by omega)
    simp only [GenomicDP.bE, GenomicDP.T2ee, GenomicDP.T1es, GenomicDP.T1ese,
      GenomicDP.colC, if_neg him, isZeroF_of_ne hlast, mul_zero, add_zero,
      sub_zero, mul_one]
    by_cases ha : aln i = 0
    · have hd : degap (sigList aln (i + 1)) = degap (sigList aln i) := by
        rw [sigList_succ, degap_append, ha, degap_singleton]
        simp
      rw [ha, isZeroF_zero, mul_one, isEqF_of_ne (Ne.symm hlast), mul_zero,
        add_zero, hd]
      exact ihi
    · have hd : degap (sigList aln (i + 1)) = degap (sigList aln i) ++ [aln i] := by
        rw [sigList_succ, degap_append, degap_singleton, if_neg ha]
      rw [isZeroF_of_ne ha, mul_zero, zero_add, hd, hsplit, haEi]
      simp only [isEqF, ind_mul_ind]
      by_cases hc : degap (sigList aln i) = sigList seq (n - 1)
          ∧ aln i = seq (n - 1)
      · rw [if_pos hc, if_pos (concat_inj_iff.mpr hc)]
      · rw [if_neg hc, if_neg (fun h => hc (concat_inj_iff.mp h))]

lemma pair_aln_seq_spec (n m : ℕ) (seq aln : ℕ → ℤ) (hn : 0 < n)
    (hseq : ∀ k < n, seq k ≠ 0) :
    GenomicDP.pair_aln_seq n m seq aln
      = if degap (sigList aln m) = sigList seq n then 1 else 0 := by
  have := bE_spec seq aln n m hn hseq m le_rfl
  simp [GenomicDP.pair_aln_seq, GenomicDP.T2ee, GenomicDP.colC, isZeroF_zero, this]

lemma bChain_spec (n m : ℕ) (seqs alns : ℕ → ℕ → ℤ) (hn : 0 < n) :
    ∀ R, (∀ r ≤ R, ∀ k < n, seqs r k ≠ 0) →
      GenomicDP.bChain n m seqs alns R
        = if (∀ r ≤ R, degap (sigList (alns r) m) = sigList (seqs r) n)
          then 1 else 0 := by
  intro R
  induction R with
  | zero =>
    intro h
    have hp := pair_aln_seq_spec n m (seqs 0) (alns 0) hn (h 0 le_rfl)
    simp only [GenomicDP.bChain, hp]
    by_cases hd : degap (sigList (alns 0) m) = sigList (seqs 0) n
    · have hall : ∀ r ≤ 0, degap (sigList (alns r) m) = sigList (seqs r) n := by
        intro r hr
        have hr0 : r = 0 := by omega
        rwa [hr0]
      rw [if_pos hd, if_pos hall]
    · rw [if_neg hd, if_neg (fun hall => hd (hall 0 le_rfl))]
  | succ R ih =>
    intro h
    have ihR := ih (fun r hr => h r (by omega))
    have hp := pair_aln_seq_spec n m (seqs (R + 1)) (alns (R + 1)) hn
      (h (R + 1) le_rfl)
    simp only [GenomicDP.bChain, ihR, hp, ind_mul_ind]
    by_cases hc : (∀ r ≤ R, degap (sigList (alns r) m) = sigList (seqs r) n)
        ∧ degap (sigList (alns (R + 1)) m) = sigList (seqs (R + 1)) n
    · have hall : ∀ r ≤ R + 1, degap (sigList (alns r) m) = sigList (seqs r) n := by
        intro r hr
        rcases (show r ≤ R ∨ r = R + 1 by omega) with h1 | h1
        · exact hc.1 r h1
        · rw [h1]; exact hc.2
      rw [if_pos hc, if_pos hall]
    · have hnot : ¬∀ r ≤ R + 1, degap (sigList (alns r) m) = sigList (seqs r) n :=
        fun hall => hc ⟨fun r hr => hall r (by omega), hall (R + 1) le_rfl⟩
      rw [if_neg hc, if_neg hnot]

lemma check_aln_seq_spec (nseq n m : ℕ) (seqs alns : ℕ → ℕ → ℤ)
    (hns : 0 < nseq) (hn : 0 < n)
    (hseq : ∀ r < nseq, ∀ k < n, seqs r k ≠ 0) :
    (GenomicDP.check_aln_seq nseq n m seqs alns = 1
      ↔ ∀ r < nseq, degap (sigList (alns r) m) = sigList (seqs r) n) := by
  have hiff : (∀ r ≤ nseq - 1, degap (sigList (alns r) m) = sigList (seqs r) n)
      ↔ (∀ r < nseq, degap (sigList (alns r) m) = sigList (seqs r) n) := by
    constructor
    · intro hall r hr
      exact hall r (by omega)
    · intro hall r hr
      exact hall r (by omega)
  have := bChain_spec n m seqs alns hn (nseq - 1)
    (fun r hr => hseq r (by omega))
  rw [GenomicDP.check_aln_seq, this]
  by_cases hd : ∀ r ≤ nseq - 1, degap (sigList (alns r) m) = sigList (seqs r) n
  · rw [if_pos hd]
    exact iff_of_true rfl (hiff.mp hd)
  · rw [if_neg hd]
    exact iff_of_false (by norm_num) (fun hall => hd (hiff.mpr hall))

lemma isEqF_eq_one_iff {a b : ℤ} : isEqF a b = 1 ↔ a = b := by
  by_cases h : a = b <;> simp [isEqF, h]

lemma ltF_eq_one_iff {a b : ℤ} : ltF a b = 1 ↔ a < b := by
  by_cases h : a < b <;> simp [ltF, h]

/-- The extractedCount chain of SequenceMatch really counts the non-gap
entries: it equals the length of the degapped prefix. -/
lemma countNonGap_eq_degap_length (aligned : ℕ → ℤ) :
    ∀ m, countNonGap aligned m = ((degap (sigList aligned m)).length : ℤ) := by
  intro m
  induction m with
  | zero => simp [countNonGap, sigList_zero, degap_nil]
  | succ m ih =>
    rw [countNonGap, ih, sigList_succ, degap_append, degap_singleton]
    by_cases h : aligned m = 0
    · simp [h, isZeroF_zero]
    · simp [h, isZeroF_of_ne h]

/-- The running best slot of ViralConsensus holds, after scanning slots
0..s, the count and index of the least-index maximal count so far. -/
lemma bestStep_spec (counts : ℕ → ℤ) :
    ∀ s, ∃ k : ℕ, k ≤ s ∧ Viral.bestStep counts s = (counts k, (k : ℤ))
      ∧ (∀ b ≤ s, counts b ≤ counts k) ∧ (∀ b < k, counts b < counts k) := by
  intro s
  induction s with
  | zero =>
    refine ⟨0, le_rfl, rfl, ?_, ?_⟩
    · intro b hb
      have hb0 : b = 0 := by omega
      rw [hb0]
    · intro b hb
      omega
  | succ s ih =>
    rcases ih with ⟨k, hks, heq, hmax, hlt⟩
    by_cases hgt : counts k < counts (s + 1)
    · refine ⟨s + 1, le_rfl, ?_, ?_, ?_⟩
      · simp only [Viral.bestStep, heq, gtF, if_pos hgt]
        norm_num
      · intro b hb
        rcases (show b ≤ s ∨ b = s + 1 by omega) with h1 | h1
        · exact le_of_lt (lt_of_le_of_lt (hmax b h1) hgt)
        · rw [h1]
      · intro b hb
        exact lt_of_le_of_lt (hmax b (by omega)) hgt
    · refine ⟨k, by omega, ?_, ?_, hlt⟩
      · simp only [Viral.bestStep, heq, gtF, if_neg hgt]
        norm_num
      · intro b hb
        rcases (show b ≤ s ∨ b = s + 1 by omega) with h1 | h1
        · exact hmax b h1
        · rw [h1]; omega

/-! ## Claim theorems -/

/-- C2: for every read seq of length n with entries in {1,2,3,4} and every
alignment aln of length m with entries in {0,1,2,3,4}, the DP gadget
pair_aln_seq(n, m) outputs 1 when the subsequence of non-gap entries of
aln equals seq in order and 0 otherwise; and the check_aln_seq output that
the DP orchestrator asserts to equal 1 (chk.y === 1) equals 1 exactly when
every read's alignment degaps to that read, so an alignment that does not
degap to its read (one non-gap base mutated, length unchanged, included)
admits no satisfying witness. -/
theorem pair_aln_seq_degap_correct :
    (∀ (n m : ℕ) (seq aln : ℕ → ℤ), 0 < n → 0 < m →
      (∀ i < n, seq i = 1 ∨ seq i = 2 ∨ seq i = 3 ∨ seq i = 4) →
      (∀ j < m, aln j = 0 ∨ aln j = 1 ∨ aln j = 2 ∨ aln j = 3 ∨ aln j = 4) →
      GenomicDP.pair_aln_seq n m seq aln
        = if degap (sigList aln m) = sigList seq n then 1 else 0)
    ∧ (∀ (nseq n m : ℕ) (seqs alns : ℕ → ℕ → ℤ), 0 < nseq → 0 < n →
      (∀ r < nseq, ∀ i < n,
        seqs r i = 1 ∨ seqs r i = 2 ∨ seqs r i = 3 ∨ seqs r i = 4) →
      (GenomicDP.check_aln_seq nseq n m seqs alns = 1
        ↔ ∀ r < nseq, degap (sigList (alns r) m) = sigList (seqs r) n)) := by
  constructor
  · intro n m seq aln hn hm hseq haln
    exact pair_aln_seq_spec n m seq aln hn
      (fun k hk => by rcases hseq k hk with h | h | h | h <;> omega)
  · intro nseq n m seqs alns hns hn hseq
    exact check_aln_seq_spec nseq n m seqs alns hns hn
      (fun r hr k hk => by rcases hseq r hr k hk with h | h | h | h <;> omega)

/-- Concrete check: the alignment [1, 0, 2] degaps to the read [1, 2] and
pair_aln_seq accepts it with output 1. -/
theorem pair_aln_seq_concrete_accept :
    GenomicDP.pair_aln_seq 2 3 (fun k => if k = 0 then 1 else 2)
      (fun k => if k = 0 then 1 else if k = 1 then 0 else 2) = 1 := by decide

/-- Concrete check: mutating the non-gap base 2 of that alignment to 3
(content changed, length unchanged) drives the pair_aln_seq output to 0. -/
theorem pair_aln_seq_concrete_reject :
    GenomicDP.pair_aln_seq 2 3 (fun k => if k = 0 then 1 else 2)
      (fun k => if k = 0 then 1 else if k = 1 then 0 else 3) = 0 := by decide

/-- C10: the DP-variant Consensus, instantiated as Consensus(10, 10, 100, 5),
is unsatisfiable for every input: each column asserts all four per-base
majority indicators equal to 1 (lt.out === 1 inside MajorityCheck,
restated as mc[i][b].ok === 1) while also asserting that their sum equals
1, forcing 4 = 1. -/
theorem genomicDP_consensus_unsat (reads alnReads : ℕ → ℕ → ℤ) :
    GenomicDP.ConsensusAssertions 10 10 100 5 reads alnReads ↔ False := by
  refine iff_false_intro ?_
  rintro ⟨hy, hok, hsum⟩
  have h1 := hok 0 (by norm_num) 0 (by norm_num)
  have h2 := hok 0 (by norm_num) 1 (by norm_num)
  have h3 := hok 0 (by norm_num) 2 (by norm_num)
  have h4 := hok 0 (by norm_num) 3 (by norm_num)
  have hs := hsum 0 (by norm_num)
  rw [GenomicDP.sumOk] at hs
  norm_num at h1 h2 h3 h4
  rw [h1, h2, h3, h4] at hs
  norm_num at hs

/-- C3: SequenceMatch sets isMatch to 1 exactly when the count of non-gap
entries of aligned equals origLen; the extractedCount chain equals the
length of the degapped alignment; isMatch does not depend on the original
array at all; and any content change to the alignment that preserves the
non-gap count is accepted identically. -/
theorem sequenceMatch_length_only :
    (∀ (original aligned : ℕ → ℤ) (maxAlnLen : ℕ) (origLen : ℤ),
      SequenceMatch original aligned maxAlnLen origLen
        = if countNonGap aligned maxAlnLen = origLen then 1 else 0)
    ∧ (∀ (aligned : ℕ → ℤ) (maxAlnLen : ℕ),
      countNonGap aligned maxAlnLen
        = ((degap (sigList aligned maxAlnLen)).length : ℤ))
    ∧ (∀ (original original' aligned : ℕ → ℤ) (maxAlnLen : ℕ) (origLen : ℤ),
      SequenceMatch original aligned maxAlnLen origLen
        = SequenceMatch original' aligned maxAlnLen origLen)
    ∧ (∀ (original aligned aligned' : ℕ → ℤ) (maxAlnLen : ℕ) (origLen : ℤ),
      countNonGap aligned maxAlnLen = countNonGap aligned' maxAlnLen →
      SequenceMatch original aligned maxAlnLen origLen
        = SequenceMatch original aligned' maxAlnLen origLen) := by
  refine ⟨fun _ _ _ _ => rfl, fun aligned m => countNonGap_eq_degap_length aligned m,
    fun _ _ _ _ _ => rfl, fun original aligned aligned2 m origLen h => ?_⟩
  simp only [SequenceMatch, h]

/-- C5 counterexample: on the gap-gap input (0, 0), ConsensusSequence's
ScoringSystem (one of the two ScoringSystem templates named by the claim)
returns -1, not the 0 the claim states. -/
theorem cseq_scoring_gap_gap_counterexample :
    CSeq.ScoringSystem 0 0 = -1 ∧ (-1 : ℤ) ≠ 0 := by decide

/-- C5 amended: GenomicConsensus's ScoringSystem returns +1 when both
inputs are non-gap and equal, 0 when both are gaps and -1 in every other
case, and its three case indicators are boolean, mutually exclusive and
exhaustive (realMatch + bothGaps + isMismatch = 1); ConsensusSequence's
ScoringSystem instead returns +1 when both non-gap and equal and -1 in
every other case, scoring gap-gap as -1. -/
theorem scoringSystem_characterization :
    (∀ a b : ℤ, GenomicFull.ScoringSystem a b
      = if a = b ∧ a ≠ 0 ∧ b ≠ 0 then 1
        else if a = 0 ∧ b = 0 then 0 else -1)
    ∧ (∀ a b : ℤ, GenomicFull.realMatch a b + GenomicFull.bothGaps a b
        + GenomicFull.isMismatch a b = 1)
    ∧ (∀ a b : ℤ,
        (GenomicFull.realMatch a b = 0 ∨ GenomicFull.realMatch a b = 1)
        ∧ (GenomicFull.bothGaps a b = 0 ∨ GenomicFull.bothGaps a b = 1)
        ∧ (GenomicFull.isMismatch a b = 0 ∨ GenomicFull.isMismatch a b = 1)
        ∧ ¬(GenomicFull.realMatch a b = 1 ∧ GenomicFull.bothGaps a b = 1))
    ∧ (∀ a b : ℤ, CSeq.ScoringSystem a b = if a = b ∧ a ≠ 0 then 1 else -1) := by
  refine ⟨?_, ?_, ?_, ?_⟩
  · intro a b
    simp only [GenomicFull.ScoringSystem, GenomicFull.realMatch,
      GenomicFull.bothGaps, GenomicFull.isMismatch, isEqF, isZeroF]
    by_cases hab : a = b <;> by_cases ha : a = 0 <;> by_cases hb : b = 0 <;>
      simp [hab, ha, hb]
  · intro a b
    simp only [GenomicFull.isMismatch]
    ring
  · intro a b
    simp only [GenomicFull.realMatch, GenomicFull.bothGaps,
      GenomicFull.isMismatch, isEqF, isZeroF]
    by_cases hab : a = b <;> by_cases ha : a = 0 <;> by_cases hb : b = 0 <;>
      simp [hab, ha, hb]
  · intro a b
    simp only [CSeq.ScoringSystem, isEqF, isZeroF]
    by_cases hab : a = b <;> by_cases ha : a = 0 <;>
      simp [hab, ha] <;> omega

/-- C6: at a column where exactly base A (code 1) clears the threshold
(two reads of base 1, threshold 0), the ConsensusSequence variant emits
the claimed sum over b of (b+1) * ok, namely the base code 1, but the
GenomicConsensus DP variant computes sum over b of b * ok and emits 0,
colliding with the gap sentinel: the two computed consensus outputs
disagree, against the claim that every computing variant emits
(b+1)-weighted sums. -/
theorem genomicDP_consensus_emit_divergence :
    GenomicDP.consensusOut 2 0 (fun r pos => 1) 0 = 0
    ∧ CSeq.consensusOut (fun r pos => 1) 2 0 0 = 1
    ∧ GenomicDP.consensusOut 2 0 (fun r pos => 1) 0
        ≠ CSeq.consensusOut (fun r pos => 1) 2 0 0 := by decide

/-- C7: the ViralConsensus best_base output is the least index among the
five per-base counts attaining the maximal count (a later base replaces
the running best only on strictly greater count), and on the tie
counts = [A=3, C=3, G=0, T=0, N=0] the winner is base A (index 0). -/
theorem viral_best_base_least_argmax :
    (∀ counts : ℕ → ℤ, (∀ b < 5, 0 ≤ counts b ∧ counts b < 2 ^ 32) →
      ∃ k : ℕ, k < 5 ∧ Viral.best_base counts = k
        ∧ (∀ b < 5, counts b ≤ counts k) ∧ (∀ b < k, counts b < counts k))
    ∧ Viral.best_base (fun b => if b = 0 then 3 else if b = 1 then 3 else 0) = 0 := by
  constructor
  · intro counts hc
    rcases bestStep_spec counts 4 with ⟨k, hk4, heq, hmax, hlt⟩
    refine ⟨k, by omega, ?_, ?_, hlt⟩
    · rw [Viral.best_base, heq]
    · intro b hb
      exact hmax b (by omega)
  · decide

/-- C8: ReverseComplement realizes the map 0 to 0, 1 to 4, 2 to 3, 3 to 2,
4 to 1, an involution on the base codes, and ReverseComplementSeq applied
twice to a sequence with entries in {0,1,2,3,4} returns the sequence. -/
theorem reverseComplement_involution :
    (ReverseComplement 0 = 0 ∧ ReverseComplement 1 = 4 ∧ ReverseComplement 2 = 3
      ∧ ReverseComplement 3 = 2 ∧ ReverseComplement 4 = 1)
    ∧ (∀ b : ℤ, (b = 0 ∨ b = 1 ∨ b = 2 ∨ b = 3 ∨ b = 4) →
        ReverseComplement (ReverseComplement b) = b)
    ∧ (∀ seq : List ℤ,
        (∀ x ∈ seq, x = 0 ∨ x = 1 ∨ x = 2 ∨ x = 3 ∨ x = 4) →
        ReverseComplementSeq (ReverseComplementSeq seq) = seq) := by
  have hmap : ∀ b : ℤ, (b = 0 ∨ b = 1 ∨ b = 2 ∨ b = 3 ∨ b = 4) →
      ReverseComplement (ReverseComplement b) = b := by
    intro b hb
    rcases hb with rfl | rfl | rfl | rfl | rfl <;> decide
  refine ⟨by decide, hmap, ?_⟩
  intro seq hseq
  simp only [ReverseComplementSeq, List.map_reverse, List.reverse_reverse,
    List.map_map]
  have : ∀ x ∈ seq, (ReverseComplement ∘ ReverseComplement) x = x :=
    fun x hx => hmap x (hseq x hx)
  rw [List.map_congr_left this]
  exact List.map_id seq

/-- C4 counterexample: a concrete input on which every assertion of the
consensus-checking Consensus template holds although the consensus signal
is the gap sentinel 0 at a column where base 1's count (2) strictly
exceeds the threshold (0): claiming a gap where a base has strict-majority
support does not make the system unsatisfiable. -/
theorem genomicFull_gap_with_majority_accepted :
    GenomicFull.ConsensusAssertions 2 1 1 0 (fun r k => 1) (fun r => 1) 1
      (fun r k => 1) (fun r => 0) (fun r => 0) (fun k => 0)
    ∧ (0 : ℤ) < GenomicFull.baseCount (fun r k => 1) 2 0 1 := by
  unfold GenomicFull.ConsensusAssertions
  decide

/-- C4 amended: when the assertions of the consensus-checking Consensus
template hold, every column's consensus signal is either the gap sentinel
0 or a base code b+1 whose count strictly exceeds the threshold — so a
non-gap consensus base without strict-majority support admits no
satisfying witness — while a gap sentinel always satisfies the per-column
check, even at a column where some base's count strictly exceeds the
threshold. -/
theorem genomicFull_consensus_soundness (nReads maxSeqLen maxAlnLen : ℕ)
    (threshold : ℤ) (reads : ℕ → ℕ → ℤ) (readLens : ℕ → ℤ) (expectedScore : ℤ)
    (alignedReads : ℕ → ℕ → ℤ) (isReversed startPos : ℕ → ℤ) (consensus : ℕ → ℤ)
    (h : GenomicFull.ConsensusAssertions nReads maxSeqLen maxAlnLen threshold
      reads readLens expectedScore alignedReads isReversed startPos consensus) :
    (∀ pos < maxAlnLen, consensus pos = 0
      ∨ ∃ b : ℕ, b < 4 ∧ consensus pos = b + 1
        ∧ threshold < GenomicFull.baseCount alignedReads nReads pos (b + 1))
    ∧ (∀ pos : ℕ, consensus pos = 0 →
        GenomicFull.validConsensus alignedReads nReads threshold consensus pos = 1) := by
  obtain ⟨hm, hscore, hcons⟩ := h
  constructor
  · intro pos hpos
    have hv := hcons pos hpos
    rw [GenomicFull.validConsensus, isEqF_eq_one_iff] at hv
    by_cases h0 : consensus pos = 0
    · exact Or.inl h0
    right
    rw [isZeroF_of_ne h0, zero_add, GenomicFull.hasMajoritySupport] at hv
    by_cases h1 : consensus pos = 1
    · refine ⟨0, by norm_num, by rw [h1]; norm_num, ?_⟩
      rw [h1] at hv
      norm_num [isEqF, GenomicFull.MajorityCheck] at hv
      simpa using ltF_eq_one_iff.mp hv
    by_cases h2 : consensus pos = 2
    · refine ⟨1, by norm_num, by rw [h2]; norm_num, ?_⟩
      rw [h2] at hv
      norm_num [isEqF, GenomicFull.MajorityCheck] at hv
      simpa using ltF_eq_one_iff.mp hv
    by_cases h3 : consensus pos = 3
    · refine ⟨2, by norm_num, by rw [h3]; norm_num, ?_⟩
      rw [h3] at hv
      norm_num [isEqF, GenomicFull.MajorityCheck] at hv
      simpa using ltF_eq_one_iff.mp hv
    by_cases h4 : consensus pos = 4
    · refine ⟨3, by norm_num, by rw [h4]; norm_num, ?_⟩
      rw [h4] at hv
      norm_num [isEqF, GenomicFull.MajorityCheck] at hv
      simpa using ltF_eq_one_iff.mp hv
    exfalso
    rw [isEqF_of_ne h1, isEqF_of_ne h2, isEqF_of_ne h3, isEqF_of_ne h4] at hv
    norm_num at hv
  · intro pos hc
    rw [GenomicFull.validConsensus, GenomicFull.hasMajoritySupport, hc]
    norm_num [isEqF, isZeroF]

/-- Witness for the C4 theorem: its hypotheses are discharged at the
concrete satisfiable instance with two identical single-base reads, base
code 1 everywhere, threshold 0 and consensus signal 1. -/
theorem genomicFull_consensus_soundness_witness :
    (∀ pos < 1, (1 : ℤ) = 0
      ∨ ∃ b : ℕ, b < 4 ∧ (1 : ℤ) = b + 1
        ∧ (0 : ℤ) < GenomicFull.baseCount (fun r k => 1) 2 pos (b + 1))
    ∧ (∀ pos : ℕ, (1 : ℤ) = 0 →
        GenomicFull.validConsensus (fun r k => 1) 2 0 (fun k => 1) pos = 1) :=
  genomicFull_consensus_soundness 2 1 1 0 (fun r k => 1) (fun r => 1) 1
    (fun r k => 1) (fun r => 0) (fun r => 0) (fun k => 1)
    (by unfold GenomicFull.ConsensusAssertions; decide)

/-- C1 counterexample: the ConsensusSequence Consensus also takes
expectedScore as a public input, but on a concrete otherwise-valid input
(two identical single-base alignments, true pairwise score 1) its (empty)
assertion set holds both for the correct expectedScore 1 and after
changing it to 2: the change only flips the public valid output from 1 to
0, and the system stays satisfiable, against the claim's quantification
over every variant taking expectedScore as a public input. -/
theorem cseq_score_change_still_satisfiable :
    CSeq.ConsensusAssertions 2 1 1 0 (fun r k => 1) (fun r => 1) 1
      (fun r k => 1) (fun r => 0) (fun r => 0)
    ∧ CSeq.ConsensusAssertions 2 1 1 0 (fun r k => 1) (fun r => 1) 2
      (fun r k => 1) (fun r => 0) (fun r => 0)
    ∧ CSeq.valid 2 1 1 0 (fun r k => 1) (fun r => 1) 1
      (fun r k => 1) (fun r => 0) (fun r => 0) = 1
    ∧ CSeq.valid 2 1 1 0 (fun r k => 1) (fun r => 1) 2
      (fun r k => 1) (fun r => 0) (fun r => 0) = 0
    ∧ (2 : ℤ) ≠ 1 := by
  exact ⟨trivial, trivial, by decide, by decide, by decide⟩

/-- C1 amended: in the GenomicConsensus variant, which asserts
scoreCheck.out === 1, any satisfying witness forces the sum of PairScore
over all unordered pairs to equal the public expectedScore, and changing
expectedScore to any different value (all other inputs fixed) makes the
assertion set unsatisfiable; the ConsensusSequence variant exposes the
comparison only through its valid output. -/
theorem genomicFull_score_soundness (nReads maxSeqLen maxAlnLen : ℕ)
    (threshold : ℤ) (reads : ℕ → ℕ → ℤ) (readLens : ℕ → ℤ) (expectedScore : ℤ)
    (alignedReads : ℕ → ℕ → ℤ) (isReversed startPos : ℕ → ℤ) (consensus : ℕ → ℤ)
    (h : GenomicFull.ConsensusAssertions nReads maxSeqLen maxAlnLen threshold
      reads readLens expectedScore alignedReads isReversed startPos consensus) :
    GenomicFull.totalScore alignedReads nReads maxAlnLen = expectedScore
    ∧ ∀ e2 : ℤ, e2 ≠ expectedScore →
        ¬ GenomicFull.ConsensusAssertions nReads maxSeqLen maxAlnLen threshold
          reads readLens e2 alignedReads isReversed startPos consensus := by
  have ht := isEqF_eq_one_iff.mp h.2.1
  refine ⟨ht, ?_⟩
  intro e2 hne h2
  exact hne ((isEqF_eq_one_iff.mp h2.2.1).symm.trans ht)

/-- Witness for the C1 theorem: its hypothesis is discharged at the
concrete satisfiable instance with two identical single-base reads and
the correct expectedScore 1. -/
theorem genomicFull_score_soundness_witness :
    GenomicFull.totalScore (fun r k => 1) 2 1 = 1
    ∧ ∀ e2 : ℤ, e2 ≠ 1 →
        ¬ GenomicFull.ConsensusAssertions 2 1 1 0 (fun r k => 1) (fun r => 1) e2
          (fun r k => 1) (fun r => 0) (fun r => 0) (fun k => 1) :=
  genomicFull_score_soundness 2 1 1 0 (fun r k => 1) (fun r => 1) 1
    (fun r k => 1) (fun r => 0) (fun r => 0) (fun k => 1)
    (by unfold GenomicFull.ConsensusAssertions; decide)

/-- C9: startPos feeds no assertion and no output in either variant that
declares it: replacing the startPos array by any other array, all other
inputs fixed, preserves satisfiability of each variant's assertion set and
leaves every circuit output (valid and consensus in the GenomicConsensus
variant; consensus, valid and alignmentScore in the ConsensusSequence
variant) unchanged. -/
theorem startPos_unconstrained (nReads maxSeqLen maxAlnLen : ℕ)
    (threshold : ℤ) (reads : ℕ → ℕ → ℤ) (readLens : ℕ → ℤ) (expectedScore : ℤ)
    (alignedReads : ℕ → ℕ → ℤ) (isReversed : ℕ → ℤ) (consensus : ℕ → ℤ)
    (startPos startPos2 : ℕ → ℤ) :
    (GenomicFull.ConsensusAssertions nReads maxSeqLen maxAlnLen threshold
        reads readLens expectedScore alignedReads isReversed startPos consensus
      ↔ GenomicFull.ConsensusAssertions nReads maxSeqLen maxAlnLen threshold
        reads readLens expectedScore alignedReads isReversed startPos2 consensus)
    ∧ GenomicFull.valid nReads maxSeqLen maxAlnLen threshold
        reads readLens expectedScore alignedReads isReversed startPos consensus
      = GenomicFull.valid nReads maxSeqLen maxAlnLen threshold
        reads readLens expectedScore alignedReads isReversed startPos2 consensus
    ∧ (CSeq.ConsensusAssertions nReads maxSeqLen maxAlnLen threshold
        reads readLens expectedScore alignedReads isReversed startPos
      ↔ CSeq.ConsensusAssertions nReads maxSeqLen maxAlnLen threshold
        reads readLens expectedScore alignedReads isReversed startPos2)
    ∧ CSeq.valid nReads maxSeqLen maxAlnLen threshold
        reads readLens expectedScore alignedReads isReversed startPos
      = CSeq.valid nReads maxSeqLen maxAlnLen threshold
        reads readLens expectedScore alignedReads isReversed startPos2
    ∧ CSeq.alignmentScore nReads maxSeqLen maxAlnLen threshold
        reads readLens expectedScore alignedReads isReversed startPos
      = CSeq.alignmentScore nReads maxSeqLen maxAlnLen threshold
        reads readLens expectedScore alignedReads isReversed startPos2
    ∧ ∀ pos : ℕ, CSeq.consensus nReads maxSeqLen maxAlnLen threshold
        reads readLens expectedScore alignedReads isReversed startPos pos
      = CSeq.consensus nReads maxSeqLen maxAlnLen threshold
        reads readLens expectedScore alignedReads isReversed startPos2 pos :=
  ⟨Iff.rfl, rfl, Iff.rfl, rfl, rfl, fun _ => rfl⟩
